import Mathlib

/-!
Shallow embedding of `src/src/DynamicsWorld.cpp` (Cinder-Bullet).

The `DynamicsWorld` class owns an object registry (`mObjects`), a Bullet
dynamics world (`mWorld`, observed here through its collision object array),
and a last-observed object count (`mNumObjects`).  The operations
`pushBack`, `erase` and `update` are translated directly from the source;
each also emits a trace of the engine calls it performs (registration,
unregistration, activation, stepping) so that ordering and call-parameter
properties can be stated.  Host inputs (`getFrameRate`, `getElapsedSeconds`)
are passed as rational parameters.
-/

namespace CinderBullet

/-- Dynamic type of a body stored in the Bullet world's collision object
array: bodies enter the array via `addRigidBody` or `addSoftBody`, so the
`btRigidBody::upcast` / `btSoftBody::upcast` checks in `update` resolve
according to this tag. -/
inductive BodyKind
  | rigid
  | soft
  deriving DecidableEq, Repr

/-- A `CollisionObject*` as seen by `DynamicsWorld.cpp`: an identity (the
pointer) and the results of the `isRigidBody()` / `isSoftBody()` virtual
calls. -/
structure CollisionObject where
  id : Nat
  isRigidBody : Bool
  isSoftBody : Bool
  deriving DecidableEq, Repr

/-- One entry of the Bullet world's collision object array
(`mWorld->getCollisionObjectArray()`): its dynamic type, the identity of the
`CollisionObject` it was registered for, and its activation flag. -/
structure CtxBody where
  kind : BodyKind
  objId : Nat
  active : Bool
  deriving DecidableEq, Repr

/-- Engine / registry calls performed by the operations, in order. -/
inductive Event
  | registryPush (id : Nat)
  | registryErase (pos : Nat)
  | addRigid (id : Nat)
  | addSoft (id : Nat)
  | removeRigid (id : Nat)
  | removeSoft (id : Nat)
  | activateRigid (id : Nat)
  | activateSoft (id : Nat)
  | step (horizon : ℚ) (maxSubSteps : Nat) (fixedTimeStep : ℚ)
  deriving DecidableEq, Repr

/-- The five heap structures the destructor may delete. -/
inductive Deleted
  | broadphase
  | collisionConfiguration
  | dispatcher
  | world
  | solver
  deriving DecidableEq, Repr

/-- State of a `DynamicsWorld`: the registry `mObjects`, the dynamics
world's collision object array `mWorld`, the last-observed count
`mNumObjects` and the timestamp `mElapsedSeconds` set by the constructor. -/
structure DynamicsWorld where
  mObjects : List CollisionObject
  mWorld : List CtxBody
  mNumObjects : Nat
  mElapsedSeconds : ℚ
  deriving DecidableEq, Repr

/-- `DynamicsWorld::DynamicsWorld` / `DynamicsWorld::create`: empty registry,
empty world, `mNumObjects = 0`, `mElapsedSeconds = getElapsedSeconds()`. -/
def create (elapsedSeconds : ℚ) : DynamicsWorld :=
  ⟨[], [], 0, elapsedSeconds⟩

/-- `DynamicsWorld::~DynamicsWorld`: deletes, guarded by null checks, in
source order: `mBroadphase`, `mCollisionConfiguration`, `mDispatcher`,
`mWorld`, `mSolver`.  Each `Bool` says whether the pointer is non-null. -/
def destructorEvents (broadphase collisionConfiguration dispatcher world solver : Bool) :
    List Deleted :=
  (if broadphase then [Deleted.broadphase] else []) ++
  (if collisionConfiguration then [Deleted.collisionConfiguration] else []) ++
  (if dispatcher then [Deleted.dispatcher] else []) ++
  (if world then [Deleted.world] else []) ++
  (if solver then [Deleted.solver] else [])

/-- `DynamicsWorld::getNumObjects`: returns `mNumObjects`. -/
def getNumObjects (w : DynamicsWorld) : Nat :=
  w.mNumObjects

/-- `DynamicsWorld::pushBack`: `mObjects.push_back(object)`, then
`addRigidBody` if `isRigidBody()`, else `addSoftBody` if `isSoftBody()`,
else nothing.  A body added to the Bullet world starts active. -/
def pushBack (w : DynamicsWorld) (object : CollisionObject) :
    DynamicsWorld × List Event :=
  let w1 : DynamicsWorld := { w with mObjects := w.mObjects ++ [object] }
  if object.isRigidBody then
    ({ w1 with mWorld := w1.mWorld ++ [⟨BodyKind.rigid, object.id, true⟩] },
      [Event.registryPush object.id, Event.addRigid object.id])
  else if object.isSoftBody then
    ({ w1 with mWorld := w1.mWorld ++ [⟨BodyKind.soft, object.id, true⟩] },
      [Event.registryPush object.id, Event.addSoft object.id])
  else
    (w1, [Event.registryPush object.id])

/-- `btCollisionWorld::removeCollisionObject` as observed through the
collision object array: the entry registered for `id` is removed (the first
matching entry; identities are unique in reachable states). -/
def removeBody (l : List CtxBody) (id : Nat) : List CtxBody :=
  match l with
  | [] => []
  | b :: rest => if b.objId = id then rest else b :: removeBody rest id

/-- `DynamicsWorld::erase`: unregisters via the rigid path if
`pos->isRigidBody()`, else via the soft path if `pos->isSoftBody()`, else
not at all; then `mObjects.erase(pos)`.  An iterator is modelled as an index
into `mObjects`; the returned iterator (the element after the erased one)
is that same index in the shrunken list.  An out-of-range `pos` is undefined
behaviour in the source; here it leaves the state unchanged. -/
def erase (w : DynamicsWorld) (pos : Nat) :
    DynamicsWorld × Nat × List Event :=
  match w.mObjects[pos]? with
  | none => (w, pos, [])
  | some o =>
    let removed : List CtxBody × List Event :=
      if o.isRigidBody then (removeBody w.mWorld o.id, [Event.removeRigid o.id])
      else if o.isSoftBody then (removeBody w.mWorld o.id, [Event.removeSoft o.id])
      else (w.mWorld, [])
    ({ w with mWorld := removed.1, mObjects := w.mObjects.eraseIdx pos },
      pos, removed.2 ++ [Event.registryErase pos])

/-- The activation pass of `update` (lines 160–171): every entry of the
collision object array is activated (`activate(true)`). -/
def activateAll (l : List CtxBody) : List CtxBody :=
  l.map fun b => { b with active := true }

/-- Events of the activation pass: rigid bodies are woken through
`btRigidBody::activate`, soft bodies through `btSoftBody::activate`. -/
def activationEvents (l : List CtxBody) : List Event :=
  l.map fun b =>
    match b.kind with
    | BodyKind.rigid => Event.activateRigid b.objId
    | BodyKind.soft => Event.activateSoft b.objId

/-- The `stepSimulation` call of `update` (line 179):
`stepSimulation(1.0f, 10, 1.0f / max(1.0f, getFrameRate()))`. -/
def stepEvent (frameRate : ℚ) : Event :=
  Event.step 1 10 (1 / max 1 frameRate)

/-- `DynamicsWorld::update`: reads `numObjects` from the collision object
array; if it differs from `mNumObjects` and is zero, returns immediately;
if it differs and is nonzero, activates every body; then (in either
remaining case) stores `numObjects` into `mNumObjects` and steps the
simulation. -/
def update (w : DynamicsWorld) (frameRate : ℚ) :
    DynamicsWorld × List Event :=
  let numObjects := w.mWorld.length
  if w.mNumObjects ≠ numObjects ∧ numObjects = 0 then
    (w, [])
  else if w.mNumObjects ≠ numObjects then
    ({ w with mWorld := activateAll w.mWorld, mNumObjects := numObjects },
      activationEvents w.mWorld ++ [stepEvent frameRate])
  else
    ({ w with mNumObjects := numObjects }, [stepEvent frameRate])

/-- A registry-mutating operation, for quantifying over call sequences. -/
inductive Op
  | push (object : CollisionObject)
  | eraseAt (pos : Nat)
  deriving DecidableEq, Repr

/-- Apply one operation (dropping the event trace). -/
def applyOp (w : DynamicsWorld) : Op → DynamicsWorld
  | Op.push o => (pushBack w o).1
  | Op.eraseAt pos => (erase w pos).1

/-- Run a sequence of operations. -/
def run (w : DynamicsWorld) : List Op → DynamicsWorld
  | [] => w
  | op :: ops => run (applyOp w op) ops

/-- Validity of one operation in a state: `pushBack` receives a valid rigid
or soft object not yet owned by any world (fresh identity), `erase` a valid
position. -/
def validOp (w : DynamicsWorld) : Op → Prop
  | Op.push o =>
      (o.isRigidBody = true ∨ o.isSoftBody = true) ∧
        o.id ∉ w.mObjects.map CollisionObject.id
  | Op.eraseAt pos => pos < w.mObjects.length

/-- Validity of a sequence of operations, each in the state it runs in. -/
def validSeq (w : DynamicsWorld) : List Op → Prop
  | [] => True
  | op :: ops => validOp w op ∧ validSeq (applyOp w op) ops

/-- Reachable-state invariant: the collision object array holds exactly the
registered identities in registry order, identities are unique, and every
registered object is rigid or soft. -/
def Inv (w : DynamicsWorld) : Prop :=
  w.mWorld.map CtxBody.objId = w.mObjects.map CollisionObject.id ∧
    (w.mObjects.map CollisionObject.id).Nodup ∧
    ∀ o ∈ w.mObjects, o.isRigidBody = true ∨ o.isSoftBody = true

theorem map_eraseIdx {α β : Type} (f : α → β) : ∀ (l : List α) (i : Nat),
    (l.eraseIdx i).map f = (l.map f).eraseIdx i
  | [], _ => by simp
  | _ :: _, 0 => by simp
  | a :: l, i + 1 => by simp [List.eraseIdx, map_eraseIdx f l i]

theorem nodup_erase_getElem : ∀ (l : List Nat) (i : Nat) (h : i < l.length),
    l.Nodup → l.erase (l.get ⟨i, h⟩) = l.eraseIdx i
  | a :: l, 0, _, _ => by simp [List.erase_cons]
  | a :: l, i + 1, h, hn => by
    have hi : i < l.length := by simpa using h
    have hmem : l.get ⟨i, hi⟩ ∈ l := l.get_mem i hi
    have hne : a ≠ l.get ⟨i, hi⟩ := by
      intro he
      exact (List.nodup_cons.mp hn).1 (he ▸ hmem)
    have hbe : (a == l.get ⟨i, hi⟩) = false := beq_false_of_ne hne
    simp only [List.get_eq_getElem] at hbe ⊢
    simp only [List.getElem_cons_succ, List.eraseIdx_cons_succ, List.erase_cons, hbe,
      Bool.false_eq_true, if_false]
    rw [← nodup_erase_getElem l i hi (List.nodup_cons.mp hn).2]
    rfl

theorem removeBody_map : ∀ (l : List CtxBody) (id : Nat),
    (removeBody l id).map CtxBody.objId = (l.map CtxBody.objId).erase id
  | [], _ => by simp [removeBody]
  | b :: rest, id => by
    by_cases h : b.objId = id
    · simp [removeBody, h, List.erase_cons]
    · have hbe : (b.objId == id) = false := beq_false_of_ne h
      simp [removeBody, h, List.erase_cons, hbe, removeBody_map rest id]

theorem Inv_create (t : ℚ) : Inv (create t) := by
  refine ⟨rfl, List.nodup_nil, ?_⟩
  intro o ho
  simp [create] at ho

theorem Inv_pushBack {w : DynamicsWorld} {o : CollisionObject} (hw : Inv w)
    (hkind : o.isRigidBody = true ∨ o.isSoftBody = true)
    (hfresh : o.id ∉ w.mObjects.map CollisionObject.id) :
    Inv (pushBack w o).1 := by
  obtain ⟨hmap, hnodup, hall⟩ := hw
  have hgoal : ∀ w' : DynamicsWorld,
      w'.mObjects = w.mObjects ++ [o] →
      w'.mWorld.map CtxBody.objId = w.mWorld.map CtxBody.objId ++ [o.id] →
      Inv w' := by
    intro w' hobj hctx
    refine ⟨?_, ?_, ?_⟩
    · rw [hctx, hobj, List.map_append, hmap]
      rfl
    · rw [hobj, List.map_append]
      simp only [List.map_cons, List.map_nil]
      simp [List.nodup_append, hnodup, hfresh]
    · intro x hx
      rw [hobj] at hx
      rcases List.mem_append.mp hx with hx | hx
      · exact hall x hx
      · simp only [List.mem_singleton] at hx
        subst hx
        exact hkind
  by_cases hr : o.isRigidBody = true
  · exact hgoal _ (by simp [pushBack, hr]) (by simp [pushBack, hr])
  · have hs : o.isSoftBody = true := hkind.resolve_left hr
    exact hgoal _ (by simp [pushBack, hr, hs]) (by simp [pushBack, hr, hs])

theorem Inv_erase {w : DynamicsWorld} {pos : Nat} (hw : Inv w)
    (hpos : pos < w.mObjects.length) :
    Inv (erase w pos).1 := by
  obtain ⟨hmap, hnodup, hall⟩ := hw
  have hget : w.mObjects[pos]? = some (w.mObjects.get ⟨pos, hpos⟩) :=
    List.getElem?_eq_getElem hpos
  set o := w.mObjects.get ⟨pos, hpos⟩ with ho
  have homem : o ∈ w.mObjects := w.mObjects.get_mem pos hpos
  have hctx : (removeBody w.mWorld o.id).map CtxBody.objId =
      (w.mObjects.eraseIdx pos).map CollisionObject.id := by
    rw [removeBody_map, hmap, map_eraseIdx]
    have hposm : pos < (w.mObjects.map CollisionObject.id).length := by
      simpa using hpos
    have hido : (w.mObjects.map CollisionObject.id).get ⟨pos, hposm⟩ = o.id := by
      simp [ho]
    rw [← hido, nodup_erase_getElem _ pos hposm hnodup]
  have hobj : (erase w pos).1.mObjects = w.mObjects.eraseIdx pos := by
    rcases hall o homem with hr | hs
    · simp [erase, hget, hr]
    · by_cases hr2 : o.isRigidBody = true
      · simp [erase, hget, hr2]
      · simp [erase, hget, hr2, hs]
  have hctxeq : (erase w pos).1.mWorld = removeBody w.mWorld o.id := by
    rcases hall o homem with hr | hs
    · simp [erase, hget, hr]
    · by_cases hr2 : o.isRigidBody = true
      · simp [erase, hget, hr2]
      · simp [erase, hget, hr2, hs]
  refine ⟨?_, ?_, ?_⟩
  · rw [hctxeq, hobj, hctx]
  · rw [hobj, map_eraseIdx]
    exact hnodup.sublist (List.eraseIdx_sublist _ pos)
  · intro x hx
    rw [hobj] at hx
    exact hall x ((List.eraseIdx_sublist w.mObjects pos).subset hx)

theorem Inv_applyOp {w : DynamicsWorld} {op : Op} (hw : Inv w)
    (hv : validOp w op) : Inv (applyOp w op) := by
  cases op with
  | push o => exact Inv_pushBack hw hv.1 hv.2
  | eraseAt pos => exact Inv_erase hw hv

theorem Inv_run : ∀ (ops : List Op) (w : DynamicsWorld),
    Inv w → validSeq w ops → Inv (run w ops)
  | [], _, hw, _ => hw
  | op :: ops, w, hw, hv =>
    Inv_run ops (applyOp w op) (Inv_applyOp hw hv.1) hv.2

/-- C1: along every valid sequence of `pushBack`/`erase` calls starting
from a freshly created world, the registry size equals the number of live
objects in the simulation context. -/
theorem registration_invariant (t : ℚ) (ops : List Op)
    (hv : validSeq (create t) ops) :
    (run (create t) ops).mObjects.length = (run (create t) ops).mWorld.length := by
  have h := (Inv_run ops (create t) (Inv_create t) hv).1
  simpa using (congrArg List.length h).symm

/-- Witness for C1 at a concrete sequence: push a rigid box, push a soft
body, erase the first object. -/
theorem registration_invariant_witness :
    validSeq (create 0) [Op.push ⟨0, true, false⟩, Op.push ⟨1, false, true⟩, Op.eraseAt 0] ∧
      (run (create 0) [Op.push ⟨0, true, false⟩, Op.push ⟨1, false, true⟩,
        Op.eraseAt 0]).mObjects.length =
      (run (create 0) [Op.push ⟨0, true, false⟩, Op.push ⟨1, false, true⟩,
        Op.eraseAt 0]).mWorld.length := by
  have hv : validSeq (create 0) [Op.push ⟨0, true, false⟩, Op.push ⟨1, false, true⟩,
      Op.eraseAt 0] := by
    refine ⟨⟨Or.inl rfl, ?_⟩, ⟨Or.inr rfl, ?_⟩, ?_, trivial⟩
    · simp [create]
    · simp [create, applyOp, pushBack]
    · simp [create, applyOp, pushBack, validOp]
  exact ⟨hv, registration_invariant 0 _ hv⟩

/-- C2 counterexample: after pushing a rigid object, updating (so the
counter records 1) and erasing it, the live count is 0 but the next
`update` call leaves the counter at 1 — the count update is skipped by the
early return, so it is not performed unconditionally. -/
theorem update_count_not_unconditional :
    getNumObjects
        (update (erase (update (pushBack (create 0) ⟨0, true, false⟩).1 5).1 0).1 7).1 = 1 ∧
      (erase (update (pushBack (create 0) ⟨0, true, false⟩).1 5).1 0).1.mWorld.length = 0 := by
  decide

/-- C2 amended: after `update` returns, the last-observed count equals the
live count read at the start of the call, except when that count is zero
and differs from the previous last-observed count, in which case the early
return leaves the counter unchanged. -/
theorem update_count_tracking (w : DynamicsWorld) (fr : ℚ) :
    getNumObjects (update w fr).1 =
      if w.mWorld.length = 0 ∧ w.mNumObjects ≠ 0 then w.mNumObjects
      else w.mWorld.length := by
  by_cases h0 : w.mWorld.length = 0
  · by_cases hn : w.mNumObjects = 0
    · simp [update, getNumObjects, h0, hn]
    · simp [update, getNumObjects, h0, hn]
  · by_cases hn : w.mNumObjects = w.mWorld.length
    · simp [update, getNumObjects, h0, hn]
    · simp [update, getNumObjects, h0, hn]

/-- C3: when the live count is zero and differs from the last-observed
count, `update` is a no-op: no activation, no stepping (empty event trace),
state returned unchanged. -/
theorem update_zero_change_noop (w : DynamicsWorld) (fr : ℚ)
    (h0 : w.mWorld.length = 0) (hne : w.mNumObjects ≠ 0) :
    update w fr = (w, []) := by
  simp [update, h0, hne]

/-- Witness for C3 at the state reached by push, update, erase. -/
theorem update_zero_change_noop_witness :
    (⟨[], [], 1, 0⟩ : DynamicsWorld).mWorld.length = 0 ∧
      (⟨[], [], 1, 0⟩ : DynamicsWorld).mNumObjects ≠ 0 ∧
      update (⟨[], [], 1, 0⟩ : DynamicsWorld) 5 = (⟨[], [], 1, 0⟩, []) :=
  ⟨rfl, by decide, update_zero_change_noop _ 5 rfl (by decide)⟩

/-- C4 counterexample: for a fully constructed world the destructor deletes
all five structures, but the simulation context (`mWorld`) is deleted
fourth, not last — the constraint solver is deleted after it. -/
theorem world_not_deleted_last :
    (destructorEvents true true true true true).getLast? ≠ some Deleted.world ∧
      Deleted.world ∈ destructorEvents true true true true true := by
  decide

/-- C4 amended: the destructor deletes the broadphase, the collision
configuration, the dispatcher, the simulation context and the constraint
solver, in that order — the context is deleted after three of its four
dependencies but before the constraint solver. -/
theorem destructor_deletion_order :
    destructorEvents true true true true true =
      [Deleted.broadphase, Deleted.collisionConfiguration, Deleted.dispatcher,
        Deleted.world, Deleted.solver] := by
  decide

theorem eraseIdx_getElem? {α : Type} : ∀ (l : List α) (i : Nat),
    (l.eraseIdx i)[i]? = l[i + 1]?
  | [], _ => by simp
  | _ :: _, 0 => by simp [List.eraseIdx]
  | a :: l, i + 1 => by simp [List.eraseIdx, eraseIdx_getElem? l i]

theorem lt_length_of_getElem? {α : Type} {l : List α} {i : Nat} {a : α}
    (h : l[i]? = some a) : i < l.length := by
  by_contra hc
  rw [List.getElem?_eq_none (by omega)] at h
  exact Option.noConfusion h

theorem erase_eq_of_getElem (w : DynamicsWorld) (pos : Nat) (o : CollisionObject)
    (hget : w.mObjects[pos]? = some o) :
    erase w pos =
      ({ w with
          mWorld := if o.isRigidBody then removeBody w.mWorld o.id
            else if o.isSoftBody then removeBody w.mWorld o.id else w.mWorld,
          mObjects := w.mObjects.eraseIdx pos },
        pos,
        (if o.isRigidBody then [Event.removeRigid o.id]
          else if o.isSoftBody then [Event.removeSoft o.id] else []) ++
          [Event.registryErase pos]) := by
  by_cases hr : o.isRigidBody <;> by_cases hs : o.isSoftBody <;>
    simp [erase, hget, hr, hs]

/-- C5: erasing a valid position unregisters the referenced object through
the path matching its discriminant and only then removes it from the
registry (trace order), removes exactly one element, leaves the object no
longer live in the simulation context, and returns the position of the
element that followed (`none` at `pos + 1` meaning end-of-sequence). -/
theorem erase_spec (w : DynamicsWorld) (pos : Nat) (o : CollisionObject)
    (hw : Inv w) (hget : w.mObjects[pos]? = some o) :
    (erase w pos).1.mObjects.length + 1 = w.mObjects.length ∧
      (erase w pos).1.mObjects = w.mObjects.eraseIdx pos ∧
      (erase w pos).2.1 = pos ∧
      (erase w pos).1.mObjects[pos]? = w.mObjects[pos + 1]? ∧
      o.id ∉ (erase w pos).1.mWorld.map CtxBody.objId ∧
      (erase w pos).2.2 =
        (if o.isRigidBody = true then [Event.removeRigid o.id]
          else if o.isSoftBody = true then [Event.removeSoft o.id] else []) ++
          [Event.registryErase pos] := by
  obtain ⟨hmap, hnodup, hall⟩ := hw
  have hpos : pos < w.mObjects.length := lt_length_of_getElem? hget
  have homem : o ∈ w.mObjects := List.getElem?_mem hget
  have he := erase_eq_of_getElem w pos o hget
  have hctxr : (erase w pos).1.mWorld = removeBody w.mWorld o.id := by
    rcases hall o homem with hr | hs
    · rw [he]
      simp [hr]
    · rw [he]
      by_cases hr2 : o.isRigidBody = true <;> simp [hr2, hs]
  refine ⟨?_, ?_, ?_, ?_, ?_, ?_⟩
  · rw [he]
    simp only
    rw [List.length_eraseIdx, if_pos hpos]
    omega
  · rw [he]
  · rw [he]
  · rw [he]
    simp only
    exact eraseIdx_getElem? w.mObjects pos
  · rw [hctxr, removeBody_map, hmap]
    intro hmem
    have hin := (List.Nodup.mem_erase_iff hnodup).mp hmem
    exact hin.1 rfl
  · rw [he]

/-- Witness for C5: a world holding one rigid and one soft object, erasing
position 0. -/
theorem erase_spec_witness :
    Inv ⟨[⟨0, true, false⟩, ⟨1, false, true⟩],
        [⟨BodyKind.rigid, 0, true⟩, ⟨BodyKind.soft, 1, true⟩], 2, 0⟩ ∧
      (⟨[⟨0, true, false⟩, ⟨1, false, true⟩],
        [⟨BodyKind.rigid, 0, true⟩, ⟨BodyKind.soft, 1, true⟩], 2,
        0⟩ : DynamicsWorld).mObjects[0]? = some ⟨0, true, false⟩ ∧
      ((erase ⟨[⟨0, true, false⟩, ⟨1, false, true⟩],
          [⟨BodyKind.rigid, 0, true⟩, ⟨BodyKind.soft, 1, true⟩], 2,
          0⟩ 0).1.mObjects.length + 1 = 2 ∧
        (erase ⟨[⟨0, true, false⟩, ⟨1, false, true⟩],
          [⟨BodyKind.rigid, 0, true⟩, ⟨BodyKind.soft, 1, true⟩], 2,
          0⟩ 0).2.1 = 0) := by
  have hw : Inv ⟨[⟨0, true, false⟩, ⟨1, false, true⟩],
      [⟨BodyKind.rigid, 0, true⟩, ⟨BodyKind.soft, 1, true⟩], 2, 0⟩ := by
    refine ⟨rfl, by decide, ?_⟩
    decide
  have h := erase_spec ⟨[⟨0, true, false⟩, ⟨1, false, true⟩],
      [⟨BodyKind.rigid, 0, true⟩, ⟨BodyKind.soft, 1, true⟩], 2, 0⟩ 0
      ⟨0, true, false⟩ hw rfl
  exact ⟨hw, rfl, h.1, h.2.2.1⟩

/-- C6: when the live count is nonzero and differs from the last-observed
count, `update` activates every body in the collision object array, waking
rigid bodies through the rigid activation path and soft bodies through the
soft activation path. -/
theorem activation_on_change (w : DynamicsWorld) (fr : ℚ)
    (hne : w.mNumObjects ≠ w.mWorld.length) (h0 : w.mWorld.length ≠ 0) :
    (∀ b ∈ (update w fr).1.mWorld, b.active = true) ∧
      ∀ b ∈ w.mWorld,
        (b.kind = BodyKind.rigid → Event.activateRigid b.objId ∈ (update w fr).2) ∧
          (b.kind = BodyKind.soft → Event.activateSoft b.objId ∈ (update w fr).2) := by
  have hu : update w fr =
      ({ w with mWorld := activateAll w.mWorld, mNumObjects := w.mWorld.length },
        activationEvents w.mWorld ++ [stepEvent fr]) := by
    simp [update, hne, h0]
  constructor
  · intro b hb
    rw [hu] at hb
    simp only [activateAll, List.mem_map] at hb
    obtain ⟨a, _, ha⟩ := hb
    rw [← ha]
  · intro b hb
    constructor <;> intro hk <;> rw [hu] <;> apply List.mem_append_left <;>
      refine List.mem_map.mpr ⟨b, hb, ?_⟩ <;> rw [hk]

/-- Witness for C6: a world with one sleeping rigid body and a stale count
of zero. -/
theorem activation_on_change_witness :
    (⟨[⟨0, true, false⟩], [⟨BodyKind.rigid, 0, false⟩], 0,
        0⟩ : DynamicsWorld).mNumObjects ≠
      (⟨[⟨0, true, false⟩], [⟨BodyKind.rigid, 0, false⟩], 0,
        0⟩ : DynamicsWorld).mWorld.length ∧
      (⟨BodyKind.rigid, 0, true⟩ : CtxBody).active = true ∧
      Event.activateRigid 0 ∈
        (update ⟨[⟨0, true, false⟩], [⟨BodyKind.rigid, 0, false⟩], 0, 0⟩ 0).2 := by
  have h := activation_on_change
    ⟨[⟨0, true, false⟩], [⟨BodyKind.rigid, 0, false⟩], 0, 0⟩ 0
    (by decide) (by decide)
  exact ⟨by decide, h.1 ⟨BodyKind.rigid, 0, true⟩ (by decide),
    (h.2 ⟨BodyKind.rigid, 0, false⟩ (by decide)).1 rfl⟩

/-- C7: every `update` call that reaches the stepping phase ends its trace
with `stepSimulation(1, 10, 1 / max 1 frameRate)`; at frame rate zero the
clamped sub-step duration is `1`. -/
theorem step_parameters (w : DynamicsWorld) (fr : ℚ)
    (h : ¬(w.mNumObjects ≠ w.mWorld.length ∧ w.mWorld.length = 0)) :
    (update w fr).2.getLast? = some (Event.step 1 10 (1 / max 1 fr)) ∧
      (1 : ℚ) / max 1 (0 : ℚ) = 1 := by
  have hclamp : (1 : ℚ) / max 1 (0 : ℚ) = 1 := by
    rw [max_eq_left (by norm_num)]
    norm_num
  by_cases hmn : w.mNumObjects = w.mWorld.length
  · refine ⟨?_, hclamp⟩
    simp [update, hmn, stepEvent]
  · have h0 : w.mWorld.length ≠ 0 := fun hz => h ⟨hmn, hz⟩
    refine ⟨?_, hclamp⟩
    have hu : (update w fr).2 = activationEvents w.mWorld ++ [stepEvent fr] := by
      simp [update, hmn, h0]
    rw [hu, List.getLast?_concat]
    rfl

/-- Witness for C7: a stable empty world at frame rate zero. -/
theorem step_parameters_witness :
    ¬((create 0).mNumObjects ≠ (create 0).mWorld.length ∧
        (create 0).mWorld.length = 0) ∧
      (update (create 0) 0).2.getLast? = some (Event.step 1 10 (1 / max 1 (0 : ℚ))) := by
  have hhyp : ¬((create 0).mNumObjects ≠ (create 0).mWorld.length ∧
      (create 0).mWorld.length = 0) := by
    simp [create]
  exact ⟨hhyp, (step_parameters (create 0) 0 hhyp).1⟩

/-- Whether a trace contains an activation call. -/
def hasActivation (evs : List Event) : Bool :=
  evs.any fun e =>
    match e with
    | Event.activateRigid _ => true
    | Event.activateSoft _ => true
    | _ => false

/-- C8: of two successive `update` calls with no intervening population
change, the second never runs the activation pass, and neither does the
first if the count was already stable before it. -/
theorem idempotent_count_tracking (w : DynamicsWorld) (fr1 fr2 : ℚ) :
    hasActivation (update (update w fr1).1 fr2).2 = false ∧
      (w.mNumObjects = w.mWorld.length →
        hasActivation (update w fr1).2 = false) := by
  by_cases hmn : w.mNumObjects = w.mWorld.length
  · have h1 : update w fr1 = ({ w with mNumObjects := w.mWorld.length },
        [stepEvent fr1]) := by
      simp [update, hmn]
    refine ⟨?_, fun _ => by rw [h1]; rfl⟩
    rw [h1]
    simp [update, hasActivation, stepEvent]
  · by_cases h0 : w.mWorld.length = 0
    · have hnz : w.mNumObjects ≠ 0 := fun hz => hmn (by rw [hz, h0])
      have h1 : update w fr1 = (w, []) := by
        simp [update, hmn, h0, hnz]
      have h2 : update w fr2 = (w, []) := by
        simp [update, hmn, h0, hnz]
      refine ⟨?_, fun hc => absurd hc hmn⟩
      rw [h1, h2]
      rfl
    · have h1 : update w fr1 =
          ({ w with mWorld := activateAll w.mWorld, mNumObjects := w.mWorld.length },
            activationEvents w.mWorld ++ [stepEvent fr1]) := by
        simp [update, hmn, h0]
      refine ⟨?_, fun hc => absurd hc hmn⟩
      rw [h1]
      simp [update, activateAll, hasActivation, stepEvent]

/-- Witness for C8: two updates of a freshly created (stable) world. -/
theorem idempotent_count_tracking_witness :
    (create 0).mNumObjects = (create 0).mWorld.length ∧
      hasActivation (update (update (create 0) 0).1 0).2 = false ∧
      hasActivation (update (create 0) 0).2 = false :=
  ⟨rfl, (idempotent_count_tracking (create 0) 0 0).1,
    (idempotent_count_tracking (create 0) 0 0).2 rfl⟩

/-- C9: `getNumObjects` is `0` at creation, is never changed by `pushBack`
or `erase`, and after an `update` holds the count that call read — or the
previous value when the call early-returned (count changed to zero). -/
theorem getNumObjects_tracking :
    (∀ t : ℚ, getNumObjects (create t) = 0) ∧
      (∀ (w : DynamicsWorld) (o : CollisionObject),
        getNumObjects (pushBack w o).1 = getNumObjects w) ∧
      (∀ (w : DynamicsWorld) (pos : Nat),
        getNumObjects (erase w pos).1 = getNumObjects w) ∧
      (∀ (w : DynamicsWorld) (fr : ℚ),
        getNumObjects (update w fr).1 =
          if w.mWorld.length = 0 ∧ w.mNumObjects ≠ 0 then getNumObjects w
          else w.mWorld.length) := by
  refine ⟨fun t => rfl, ?_, ?_, ?_⟩
  · intro w o
    by_cases hr : o.isRigidBody = true
    · simp [pushBack, getNumObjects, hr]
    · by_cases hs : o.isSoftBody = true <;> simp [pushBack, getNumObjects, hr, hs]
  · intro w pos
    cases hget : w.mObjects[pos]? with
    | none => simp [erase, hget]
    | some o => simp [erase, hget, getNumObjects]
  · intro w fr
    by_cases h0 : w.mWorld.length = 0
    · by_cases hn : w.mNumObjects = 0 <;> simp [update, getNumObjects, h0, hn]
    · by_cases hn : w.mNumObjects = w.mWorld.length <;>
        simp [update, getNumObjects, h0, hn]

/-- C10: an object reporting neither rigid nor soft is appended to the
registry without any solver registration, and erasing it performs no solver
unregistration before the registry removal; both operations return
normally. -/
theorem unknown_kind_no_registration (w w' : DynamicsWorld) (o : CollisionObject)
    (pos : Nat) (hr : o.isRigidBody = false) (hs : o.isSoftBody = false)
    (hget : w'.mObjects[pos]? = some o) :
    pushBack w o =
        ({ w with mObjects := w.mObjects ++ [o] }, [Event.registryPush o.id]) ∧
      erase w' pos =
        ({ w' with mObjects := w'.mObjects.eraseIdx pos }, pos,
          [Event.registryErase pos]) := by
  constructor
  · simp [pushBack, hr, hs]
  · simp [erase, hget, hr, hs]

/-- Witness for C10: a discriminant-less object pushed into a fresh world
and erased from a world holding only it. -/
theorem unknown_kind_no_registration_witness :
    (⟨5, false, false⟩ : CollisionObject).isRigidBody = false ∧
      (⟨5, false, false⟩ : CollisionObject).isSoftBody = false ∧
      (⟨[⟨5, false, false⟩], [], 0, 0⟩ : DynamicsWorld).mObjects[0]? =
        some ⟨5, false, false⟩ ∧
      pushBack (create 0) ⟨5, false, false⟩ =
        ({ create 0 with mObjects := [⟨5, false, false⟩] },
          [Event.registryPush 5]) ∧
      erase (⟨[⟨5, false, false⟩], [], 0, 0⟩ : DynamicsWorld) 0 =
        ({ (⟨[⟨5, false, false⟩], [], 0, 0⟩ : DynamicsWorld) with mObjects := [] },
          0, [Event.registryErase 0]) := by
  have h := unknown_kind_no_registration (create 0)
    ⟨[⟨5, false, false⟩], [], 0, 0⟩ ⟨5, false, false⟩ 0 rfl rfl rfl
  exact ⟨rfl, rfl, rfl, h.1, h.2⟩

end CinderBullet
